import Mathlib

/-!
Shallow embedding of the mars-gym bandit-evaluation / arm-scoring pipeline
(`src/mars_gym/simulation/training.py`) and of the contextual-bandit scoring
networks (`recommendation/model/contextual_bandits.py`), with theorems that
settle the specification claims about them.

Conventions: numpy float vectors become `List ℤ` or `List ℚ`; a pandas data
frame becomes a list of column names together with a list of rows; a Python
function that can raise becomes `Except Unit _`; `None` tensors become
`Option _`; `random.shuffle` becomes an abstract permutation-producing
function passed as a parameter.
-/

namespace MarsGym

/-! ### `np.flatnonzero` and the availability vector

`SupervisedModelTraining._get_arm_indices` uses `np.flatnonzero(ob[col])`;
`_save_test_set_predictions` builds the vector it is applied to:
`items = np.zeros(np.max(available_arms) + 1); items[available_arms] = 1`.
-/

/-- `np.flatnonzero v`: the indices of the non-zero entries of `v`, ascending. -/
def flatnonzero (v : List ℤ) : List ℕ :=
  (List.range v.length).filter (fun i => v.getD i 0 ≠ 0)

/-- `np.max` over a list of naturals (`0` on the empty list, which numpy
would reject; the callers below only reach it with a non-empty list). -/
def npMax (l : List ℕ) : ℕ := l.foldr max 0

/-- The indicator vector `items` of `_save_test_set_predictions`:
`np.zeros(np.max(available_arms) + 1)` with `items[available_arms] = 1`. -/
def build_items_vector (available_arms : List ℕ) : List ℤ :=
  (List.range (npMax available_arms + 1)).map (fun i => if i ∈ available_arms then 1 else 0)

/-- The availability preprocessing in `_save_test_set_predictions`: an empty
available-arms list is replaced by the singleton logged item, then the 0/1
indicator vector is built. -/
def save_predictions_items (available_arms : List ℕ) (logged_item : ℕ) : List ℤ :=
  let available_arms := if available_arms.length = 0 then [logged_item] else available_arms
  build_items_vector available_arms

/-! ### `unique_items` and `_get_arm_indices` -/

/-- `pandas.Series.unique`: the distinct values in first-occurrence order.
`SupervisedModelTraining.unique_items` applies it to the item column of
`pd.concat([train_data_frame, val_data_frame])`. -/
def pdUnique : List ℕ → List ℕ
  | [] => []
  | a :: l => a :: pdUnique (l.filter (fun x => x ≠ a))
termination_by l => l.length
decreasing_by
  simp only [List.length_cons]
  exact Nat.lt_succ_of_le (List.length_filter_le _ _)

/-- `SupervisedModelTraining._get_arm_indices`: the non-zero positions of the
observation's availability vector when the project config names an
available-arms column, otherwise the first 100 unique items of the combined
train and validation data; the result is shuffled in place
(`random.shuffle`), modelled by the `shuffle` parameter. -/
def get_arm_indices (shuffle : List ℕ → List ℕ)
    (available_arms_value : Option (List ℤ)) (combined_items : List ℕ) : List ℕ :=
  match available_arms_value with
  | some v => shuffle (flatnonzero v)
  | none => shuffle ((pdUnique combined_items).take 100)

/-! ### `action_scores` in `_save_test_set_predictions`

`action_scores_list = [list(reversed(sorted(action_scores))) for action_scores
in arm_scores_list]`. -/

/-- One entry of `action_scores_list`: the scores sorted ascending
(`sorted`) and then reversed (`reversed`), i.e. non-increasing. -/
def action_scores (l : List ℚ) : List ℚ :=
  (List.insertionSort (· ≤ ·) l).reverse

/-! ### `_create_ob_data_frame` and `_prepare_for_agent`, generically

`_prepare_for_agent` builds one per-arm data frame per observation
(`_create_ob_data_frame` emits one row per arm index, in order), concatenates
them into one `InteractionsDataset`, and cuts the dataset — and, when the
bandit has a reward model, the flattened model scores over the whole
dataset — back into per-observation slices with a running offset
(`l[i : i + len(ob_df)]`, `i += len(ob_df)`).

`Ob` is the observation dict, `Row` a row of the per-arm frame, `Ctx` the
dataset's input tuple for one row; `armIdx` stands for `_get_arm_indices`
(already settled concretely above), `mkRow` for the per-arm row constructor
of `_create_ob_data_frame` (settled concretely below), `rowCtx` for the
dataset's row-to-input transform, `score` for the reward model applied to
one dataset row, and `calc_scores` for `agent.bandit.calculate_scores`. -/

/-- The rows of `_create_ob_data_frame(ob, arm_indices)`: one row per arm
index, in the order of `arm_indices`. -/
def create_ob_data_frame_rows {Ob Row : Type} (mkRow : Ob → ℕ → Row)
    (ob : Ob) (arm_indices : List ℕ) : List Row :=
  arm_indices.map (mkRow ob)

/-- The slicing loop of `_prepare_for_agent`: cut `l` into consecutive
pieces of lengths `ns` (`l[i : i + n]` with a running offset `i`). -/
def sliceBy {α : Type} : List α → List ℕ → List (List α)
  | _, [] => []
  | l, n :: ns => l.take n :: sliceBy (l.drop n) ns

/-- `SupervisedModelTraining._prepare_for_agent`, returning
`(arm_contexts_list, arm_indices_list, arm_scores_list)`. -/
def prepare_for_agent {Ob Row Ctx : Type} (armIdx : Ob → List ℕ)
    (mkRow : Ob → ℕ → Row) (rowCtx : Row → Ctx)
    (reward_model : Option (Row → ℚ))
    (calc_scores : List ℕ → List Ctx → List ℚ)
    (obs : List Ob) : List (List Ctx) × List (List ℕ) × List (List ℚ) :=
  let arm_indices_list := obs.map armIdx
  let ob_dfs := (obs.zip arm_indices_list).map
    (fun p => create_ob_data_frame_rows mkRow p.1 p.2)
  let dataset := ob_dfs.flatten
  let lens := ob_dfs.map List.length
  let arm_contexts_list := sliceBy (dataset.map rowCtx) lens
  let arm_scores_list :=
    match reward_model with
    | some score => sliceBy (dataset.map score) lens
    | none => (arm_indices_list.zip arm_contexts_list).map
        (fun p => calc_scores p.1 p.2)
  (arm_contexts_list, arm_indices_list, arm_scores_list)

/-! ### The pandas data frame model for `_create_ob_data_frame`,
`_fill_hist_columns` and `_save_test_set_predictions` -/

/-- A data-frame cell: an integer, a rational score, a list of items, a
list of scores, or `NaN` (the value pandas fills in for a missing key). -/
inductive Val where
  | int (n : ℤ)
  | rat (q : ℚ)
  | natList (l : List ℕ)
  | ratList (l : List ℚ)
  | nan
  deriving DecidableEq, Repr

/-- A pandas data frame: named columns and positional rows. -/
structure DF where
  cols : List String
  rows : List (List Val)
  deriving DecidableEq, Repr

/-- Every row has one cell per column. -/
def DF.WF (df : DF) : Prop :=
  ∀ r ∈ df.rows, r.length = df.cols.length

/-- Cell access by row position and column name (first matching column, as
in a well-formed frame); `none` when the row or column does not exist. -/
def DF.cell (df : DF) (i : ℕ) (c : String) : Option Val :=
  (df.cols.zip (df.rows.getD i [])).lookup c

/-- Dict lookup `ob[c]` with pandas' `NaN` for a missing key. -/
def lookupOb (ob : List (String × Val)) (c : String) : Val :=
  match ob.lookup c with
  | some v => v
  | none => .nan

/-- One row of `_create_ob_data_frame`: the dict `{**ob, item_column: arm}`
read off at the frame's columns. -/
def mk_ob_row (item_column : String) (ob : List (String × Val))
    (cols : List String) (arm : ℤ) : List Val :=
  cols.map (fun c => if c = item_column then .int arm else lookupOb ob c)

/-- `pd.DataFrame(columns=obs_columns + [item_column], data=data)` where
`data = [{**ob, item_column: arm} for arm in arm_indices]`. -/
def create_ob_data_frame (obs_columns : List String) (item_column : String)
    (ob : List (String × Val)) (arm_indices : List ℤ) : DF :=
  let cols := obs_columns ++ [item_column]
  ⟨cols, arm_indices.map (fun a => mk_ob_row item_column ob cols a)⟩

/-- `ob_df[c] = v` guarded by `if c not in ob_df.columns` (the pattern used
by `_fill_hist_columns` and the output-column fills): append the column with
a constant value when absent, otherwise leave the frame unchanged. -/
def DF.addColIfAbsent (df : DF) (c : String) (v : Val) : DF :=
  if c ∈ df.cols then df
  else ⟨df.cols ++ [c], df.rows.map (fun r => r ++ [v])⟩

/-- `SupervisedModelTraining._fill_hist_columns`. -/
def fill_hist_columns (hist_view_column hist_output_column : String)
    (df : DF) : DF :=
  (df.addColIfAbsent hist_view_column (.int 0)).addColIfAbsent
    hist_output_column (.int 0)

/-- `SupervisedModelTraining._create_ob_data_frame` in full: the per-arm
rows, then `_fill_hist_columns`, then the output column defaulted to 1 and
each auxiliary output column defaulted to 0 when absent. -/
def create_ob_data_frame_full (obs_columns : List String)
    (item_column hist_view_column hist_output_column output_column : String)
    (auxiliar_output_columns : List String)
    (ob : List (String × Val)) (arm_indices : List ℤ) : DF :=
  let df := create_ob_data_frame obs_columns item_column ob arm_indices
  let df := fill_hist_columns hist_view_column hist_output_column df
  let df := df.addColIfAbsent output_column (.int 1)
  auxiliar_output_columns.foldl (fun d c => d.addColIfAbsent c (.int 0)) df

/-- Pandas column assignment `df[c] = vs` with one value per row: replace
the column in place when it exists, otherwise append it on the right. -/
def DF.setCol (df : DF) (c : String) (vs : List Val) : DF :=
  if c ∈ df.cols then
    ⟨df.cols, (df.rows.zip vs).map (fun p => p.1.set (df.cols.indexOf c) p.2)⟩
  else
    ⟨df.cols ++ [c], (df.rows.zip vs).map (fun p => p.1 ++ [p.2])⟩

/-- The frame-updating tail of
`SupervisedModelTraining._save_test_set_predictions`: the test data frame's
records (each preprocessed in place by `prep`: the item-metadata key is
added and the available-arms value replaced by its indicator vector) are fed
to `_prepare_for_agent`; `agent.rank` (the abstract `rank`) is mapped over
the zipped per-observation triples, the per-observation scores are sorted
descending, and the three resulting lists are assigned to the columns
`sorted_actions`, `prob_actions` and `action_scores` of the test data frame
before it is written out. -/
def save_test_set_predictions {Row Ctx : Type}
    (prep : List (String × Val) → List (String × Val))
    (armIdx : List (String × Val) → List ℕ)
    (mkRow : List (String × Val) → ℕ → Row) (rowCtx : Row → Ctx)
    (reward_model : Option (Row → ℚ))
    (calc_scores : List ℕ → List Ctx → List ℚ)
    (rank : List ℕ → List Ctx → List ℚ → List ℕ × List ℚ)
    (df : DF) : DF :=
  let obs := (df.rows.map (fun r => df.cols.zip r)).map prep
  let p := prepare_for_agent armIdx mkRow rowCtx reward_model calc_scores obs
  let ranked := (p.2.1.zip (p.1.zip p.2.2)).map (fun q => rank q.1 q.2.1 q.2.2)
  let action_scores_list := p.2.2.map action_scores
  ((df.setCol "sorted_actions" (ranked.map (fun r => Val.natList r.1))).setCol
      "prob_actions" (ranked.map (fun r => Val.ratList r.2))).setCol
    "action_scores" (action_scores_list.map Val.ratList)

/-! ### `_BaseModelTraining.run` (`training.py`): output-directory lifecycle

The run method makes the output directory (`os.makedirs(..., exist_ok=True)`),
writes the params file (`_save_params`), and calls `train()` inside
`try/except Exception: shutil.rmtree(self.output().path); raise`. The state
we track is the output directory's contents: `none` = the directory does not
exist, `some files` = it exists with those files. `train` is any
output-directory transformer that may raise. -/

/-- `_save_params`: write the params file into the output directory. -/
def save_params (d : List String) : List String := d ++ ["params.json"]

/-- `_BaseModelTraining.run`, returning the call's outcome together with the
final state of the task's output directory. -/
def task_run {ε : Type} (train : List String → Except ε (List String))
    (initial : Option (List String)) :
    Except ε Unit × Option (List String) :=
  let d0 := initial.getD []
  let d1 := save_params d0
  match train d1 with
  | .ok d2 => (.ok (), some d2)
  | .error e => (.error e, none)

/-! ### `ContextualBandit.__init__` (`recommendation/model/contextual_bandits.py`):
input dimensions and predictor selection -/

/-- The predictor module built by the `ContextualBandit` constructor. -/
inductive PredictorModel where
  | logisticRegression (n_factors : ℕ)
  | factorizationMachine (n_factors context_input_dim item_input_dim user_input_dim : ℕ)
      (fm_order : ℕ) (fm_deep : Bool) (fm_hidden_layers : List ℕ)
  deriving DecidableEq, Repr

/-- The `(user_input_dim, item_input_dim, context_input_dim)` computed by
`ContextualBandit.__init__` from its feature flags. -/
def contextual_bandit_input_dims (n_factors : ℕ)
    (user_embeddings item_embeddings use_textual_content : Bool)
    (num_filters : ℕ) (filter_sizes : List ℕ)
    (context_embeddings use_buys_visits use_numerical_content : Bool)
    (numerical_content_dim : ℕ) : ℕ × ℕ × ℕ :=
  let user_input_dim := if user_embeddings then n_factors else 0
  let item_input_dim := (if item_embeddings then n_factors else 0) +
    (if use_textual_content then (filter_sizes.map (fun K => K * num_filters)).sum else 0)
  let context_input_dim := if context_embeddings then
      (if use_buys_visits then 2 else 0) +
        (if use_numerical_content then numerical_content_dim else 0)
    else 0
  (user_input_dim, item_input_dim, context_input_dim)

/-- The predictor dispatch of `ContextualBandit.__init__`:
`LogisticRegression(item_input_dim + context_input_dim + user_input_dim)`
for `"logistic_regression"`,
`DeepFactorizationMachine(n_factors, context_input_dim, item_input_dim,
user_input_dim, fm_order, ..., fm_deep, fm_hidden_layers)` for
`"factorization_machine"`, and `raise NotImplementedError` otherwise. -/
def contextual_bandit_build_predictor (predictor : String) (n_factors : ℕ)
    (dims : ℕ × ℕ × ℕ) (fm_order : ℕ) (fm_deep : Bool)
    (fm_hidden_layers : List ℕ) : Except Unit PredictorModel :=
  if predictor = "logistic_regression" then
    .ok (.logisticRegression (dims.2.1 + dims.2.2 + dims.1))
  else if predictor = "factorization_machine" then
    .ok (.factorizationMachine n_factors dims.2.2 dims.2.1 dims.1
      fm_order fm_deep fm_hidden_layers)
  else
    .error ()

/-! ### `ContextualBandit.compute_user_embeddings` and `forward`

In `compute_user_embeddings` the local `out` is assigned only inside the
`if self.use_normalize:` branch, so `return out` raises `UnboundLocalError`
whenever `use_normalize` is disabled; the raise is modelled as `.error ()`.
`α` stands for a tensor; `normalize` for `F.normalize`, `embed_user` for the
user embedding table. -/

/-- `ContextualBandit.compute_user_embeddings`. -/
def compute_user_embeddings {α : Type} (use_normalize : Bool)
    (normalize : α → α) (user_emb : α) : Except Unit α :=
  if use_normalize then .ok (normalize user_emb) else .error ()

/-- `ContextualBandit.forward`: the context and item representations
(`ctxRep`, `itemRep` — possibly `None`, computed by total code), then
`compute_user_embeddings(user_ids) if self.user_embeddings else None`, then
`self.predictor.predict(item_representation, user_representation,
context_representation)`. -/
def contextual_bandit_forward {α β UserId : Type}
    (user_embeddings use_normalize : Bool) (normalize : α → α)
    (embed_user : UserId → α) (ctxRep itemRep : Option α)
    (predict : Option α → Option α → Option α → β)
    (user_ids : UserId) : Except Unit β :=
  match (if user_embeddings then
      (compute_user_embeddings use_normalize normalize (embed_user user_ids)).map some
    else .ok none) with
  | .error e => .error e
  | .ok user_representation => .ok (predict itemRep user_representation ctxRep)

/-! ### `LogisticRegression.predict` and `DeepFactorizationMachine.predict`

A batch-1 tensor is a `List ℚ` of features; `torch.cat(..., dim=1)` is
append; passing `None` to `torch.cat`, or to a linear layer, raises
(modelled as `.error ()`). -/

/-- One step of the first-order loop of `DeepFactorizationMachine.predict`:
`x = v if self.none_tensor(x) else torch.cat((x, v), dim=1)` — when `x` is
already a tensor and `v` is `None`, `torch.cat` raises. -/
def fm_first_order_step (x v : Option (List ℚ)) :
    Except Unit (Option (List ℚ)) :=
  match x, v with
  | none, _ => .ok v
  | some xt, some vt => .ok (some (xt ++ vt))
  | some _, none => .error ()

/-- One pass `k` of the higher-order loop of
`DeepFactorizationMachine.predict`:
`for a, b in combinations(latent_vectors, k): ...`. Unpacking a
`k`-combination into the two names `a, b` succeeds only for `k = 2`, where
the pass computes the pairwise `bmm` dots; for `k ≠ 2` the first yielded
tuple raises `ValueError` — which happens exactly when
`combinations(latent_vectors, k)` is non-empty, i.e. `k ≤ len(latent_vectors)`
(for `k = 0` the single empty tuple also fails to unpack, and `0 ≤ len`
always holds, so the condition is uniform). -/
def fm_higher_order_step (dot : List ℚ → List ℚ → ℚ)
    (latent_vectors : List (List ℚ)) (k : ℕ) : Except Unit (List ℚ) :=
  if k = 2 then
    .ok ((latent_vectors.sublistsLen 2).map
      (fun p => dot (p.getD 0 []) (p.getD 1 [])))
  else if k ≤ latent_vectors.length then .error ()
  else .ok []

/-- The higher-order loop of `DeepFactorizationMachine.predict` over the
values of `k` drawn from `range(2, order + 1)`: each pass appends its dot
products, and the first raising pass aborts the call. -/
def fm_higher_order_loop (dot : List ℚ → List ℚ → ℚ)
    (latent_vectors : List (List ℚ)) : List ℕ → Except Unit (List ℚ)
  | [] => .ok []
  | k :: ks =>
    match fm_higher_order_step dot latent_vectors k with
    | .error e => .error e
    | .ok dots =>
      match fm_higher_order_loop dot latent_vectors ks with
      | .error e => .error e
      | .ok rest => .ok (dots ++ rest)

/-- `DeepFactorizationMachine.predict`. `latent_vectors` collects the
per-input latent projections, skipping `None` inputs; the first-order loop
runs over `[item, user, context]` in order; `self.linear` applied to a still-
`None` `x` raises; then the higher-order loop runs over
`k ∈ range(2, order + 1)` (modelled as `List.range' 2 (order - 1)`,
the list `[2, ..., order]`), raising `ValueError` on the first non-empty
pass with `k ≠ 2`. The deep head is a total computation over the (by then
non-empty) `latent_vectors`. `dot` stands for the pairwise `bmm` dot,
`deepNet` for the hidden stack, `sigmoid` for `torch.sigmoid`. -/
def fm_predict (linear : List ℚ → ℚ)
    (ctxLayer itemLayer userLayer : List ℚ → List ℚ)
    (dot : List ℚ → List ℚ → ℚ) (order : ℕ) (deep : Bool)
    (deepNet : List (List ℚ) → ℚ) (sigmoid : ℚ → ℚ)
    (item user ctx : Option (List ℚ)) : Except Unit ℚ :=
  let latent_vectors :=
    (match ctx with | some c => [ctxLayer c] | none => []) ++
    (match item with | some i => [itemLayer i] | none => []) ++
    (match user with | some u => [userLayer u] | none => [])
  match fm_first_order_step none item with
  | .error e => .error e
  | .ok x0 =>
    match fm_first_order_step x0 user with
    | .error e => .error e
    | .ok x1 =>
      match fm_first_order_step x1 ctx with
      | .error e => .error e
      | .ok x2 =>
        match x2 with
        | none => .error ()
        | some xt =>
          let first_order := linear xt
          let deep_part := if deep then deepNet latent_vectors else 0
          (fm_higher_order_loop dot latent_vectors
            (List.range' 2 (order - 1))).map
            (fun dots => sigmoid (first_order + dots.sum + deep_part))

/-- `LogisticRegression.predict`: start from the context representation,
concatenate the user and then the item representation when present (each
guarded by a `None` check, so `torch.cat` never sees `None`); `self.linear`
applied to a still-`None` `x` raises. -/
def lr_predict (linear : List ℚ → ℚ) (sigmoid : ℚ → ℚ)
    (item user ctx : Option (List ℚ)) : Except Unit ℚ :=
  let x := ctx
  let x := match user with
    | none => x
    | some u => some (match x with | none => u | some xt => xt ++ u)
  let x := match item with
    | none => x
    | some it => some (match x with | none => it | some xt => xt ++ it)
  match x with
  | none => .error ()
  | some xt => .ok (sigmoid (linear xt))

/-! ## Theorems -/

/-! ### Arm-index recovery (C2, C3) -/

lemma mem_flatnonzero {v : List ℤ} {a : ℕ} :
    a ∈ flatnonzero v ↔ a < v.length ∧ v.getD a 0 ≠ 0 := by
  simp [flatnonzero, List.mem_filter, List.mem_range]

lemma nodup_flatnonzero (v : List ℤ) : (flatnonzero v).Nodup :=
  (List.nodup_range _).filter _

lemma length_build_items_vector (arms : List ℕ) :
    (build_items_vector arms).length = npMax arms + 1 := by
  simp [build_items_vector]

lemma build_items_vector_getD {arms : List ℕ} {a : ℕ} (h : a < npMax arms + 1) :
    (build_items_vector arms).getD a 0 = if a ∈ arms then 1 else 0 := by
  simp [build_items_vector, List.getD_eq_getElem?_getD, List.getElem?_map,
    List.getElem?_range h]

lemma le_npMax_of_mem {arms : List ℕ} {a : ℕ} (h : a ∈ arms) : a ≤ npMax arms := by
  induction arms with
  | nil => cases h
  | cons b l ih =>
    simp only [npMax, List.foldr_cons] at *
    rcases List.mem_cons.mp h with rfl | h'
    · exact le_max_left _ _
    · exact le_trans (ih h') (le_max_right _ _)

/-- The indicator vector of `_save_test_set_predictions` followed by
`np.flatnonzero` recovers the membership of the arm list. -/
lemma mem_flatnonzero_build {arms : List ℕ} {a : ℕ} :
    a ∈ flatnonzero (build_items_vector arms) ↔ a ∈ arms := by
  rw [mem_flatnonzero, length_build_items_vector]
  constructor
  · rintro ⟨hlt, hne⟩
    rw [build_items_vector_getD hlt] at hne
    by_contra hmem
    simp [hmem] at hne
  · intro hmem
    have hlt : a < npMax arms + 1 := Nat.lt_succ_of_le (le_npMax_of_mem hmem)
    refine ⟨hlt, ?_⟩
    rw [build_items_vector_getD hlt]
    simp [hmem]

lemma eq_singleton_of_nodup_mem {l : List ℕ} {a : ℕ} (hd : l.Nodup)
    (h : ∀ x, x ∈ l ↔ x = a) : l = [a] := by
  cases l with
  | nil => exact absurd ((h a).mpr rfl) (List.not_mem_nil a)
  | cons b t =>
    have hb : b = a := (h b).mp (List.mem_cons_self b t)
    subst hb
    have ht : t = [] := by
      by_contra hne
      rcases List.exists_mem_of_ne_nil t hne with ⟨c, hc⟩
      have hcb : c = b := (h c).mp (List.mem_cons_of_mem _ hc)
      subst hcb
      exact (List.nodup_cons.mp hd).1 hc
    rw [ht]

lemma flatnonzero_build_singleton (item : ℕ) :
    flatnonzero (build_items_vector [item]) = [item] :=
  eq_singleton_of_nodup_mem (nodup_flatnonzero _)
    (fun x => by rw [mem_flatnonzero_build]; simp)

/-- **C2.** For a test observation with a non-empty available-arms list, the
0/1 indicator vector written by `_save_test_set_predictions` followed by
`_get_arm_indices` (non-zero positions, shuffled) recovers exactly the
original set of available arms; with an empty available-arms list the logged
item becomes the single candidate arm. -/
theorem C2_availability_roundtrip (shuffle : List ℕ → List ℕ)
    (hsh : ∀ l, (shuffle l).Perm l)
    (available_arms : List ℕ) (logged_item : ℕ) (combined_items : List ℕ) :
    (available_arms ≠ [] →
      ∀ a, a ∈ get_arm_indices shuffle
          (some (save_predictions_items available_arms logged_item))
          combined_items ↔ a ∈ available_arms) ∧
    (available_arms = [] →
      get_arm_indices shuffle
          (some (save_predictions_items available_arms logged_item))
          combined_items = [logged_item]) := by
  constructor
  · intro hne a
    have hlen : ¬available_arms.length = 0 := by
      simpa [List.length_eq_zero] using hne
    rw [get_arm_indices, (hsh _).mem_iff]
    simp only [save_predictions_items, hlen, if_false]
    exact mem_flatnonzero_build
  · rintro rfl
    rw [get_arm_indices]
    simp only [save_predictions_items, List.length_nil, if_true, if_pos trivial]
    rw [flatnonzero_build_singleton]
    exact List.perm_singleton.mp (hsh _)

/-- Witness for C2 at a concrete observation. -/
theorem C2_availability_roundtrip_witness :
    ((3 : ℕ) ∈ get_arm_indices id (some (save_predictions_items [3, 5] 9)) [] ↔
      (3 : ℕ) ∈ [3, 5]) :=
  (C2_availability_roundtrip id (fun l => List.Perm.refl l) [3, 5] 9 []).1
    (by decide) 3

/-- **C3.** `_get_arm_indices` returns a permutation of the indices of the
non-zero entries of the availability vector when the project config defines
an available-arms column, and otherwise a permutation of the first 100
unique items (first-occurrence order) of the combined train and validation
data; as a set the result is independent of the shuffle. -/
theorem C3_get_arm_indices_permutation (shuffle : List ℕ → List ℕ)
    (hsh : ∀ l, (shuffle l).Perm l)
    (available_arms_value : Option (List ℤ)) (combined_items : List ℕ) :
    (∀ v, available_arms_value = some v →
      (get_arm_indices shuffle available_arms_value combined_items).Perm
        (flatnonzero v)) ∧
    (available_arms_value = none →
      (get_arm_indices shuffle available_arms_value combined_items).Perm
        ((pdUnique combined_items).take 100)) ∧
    (∀ shuffle2, (∀ l, (shuffle2 l).Perm l) →
      ∀ x, x ∈ get_arm_indices shuffle available_arms_value combined_items ↔
        x ∈ get_arm_indices shuffle2 available_arms_value combined_items) := by
  refine ⟨?_, ?_, ?_⟩
  · rintro v rfl
    exact hsh _
  · rintro rfl
    exact hsh _
  · intro shuffle2 hsh2 x
    cases available_arms_value with
    | some v => rw [get_arm_indices, get_arm_indices, (hsh _).mem_iff, (hsh2 _).mem_iff]
    | none => rw [get_arm_indices, get_arm_indices, (hsh _).mem_iff, (hsh2 _).mem_iff]

/-- Witness for C3 at a concrete availability vector, with reversal as the
shuffle. -/
theorem C3_get_arm_indices_permutation_witness :
    (get_arm_indices List.reverse (some [0, 2, 0, 5]) []).Perm
      (flatnonzero [0, 2, 0, 5]) :=
  (C3_get_arm_indices_permutation List.reverse (fun l => List.reverse_perm l)
    (some [0, 2, 0, 5]) []).1 [0, 2, 0, 5] rfl

/-! ### The `_prepare_for_agent` slicing (C1) -/

lemma sliceBy_length {α : Type} (l : List α) (ns : List ℕ) :
    (sliceBy l ns).length = ns.length := by
  induction ns generalizing l with
  | nil => rfl
  | cons n ns ih => simp [sliceBy, ih]

lemma sliceBy_getD {α : Type} (l : List α) (ns : List ℕ) (i : ℕ)
    (hi : i < ns.length) :
    (sliceBy l ns).getD i [] = (l.drop ((ns.take i).sum)).take (ns.getD i 0) := by
  induction ns generalizing l i with
  | nil => simp at hi
  | cons n ns ih =>
    cases i with
    | zero => simp [sliceBy]
    | succ j =>
      have hj : j < ns.length := Nat.lt_of_succ_lt_succ hi
      simp only [sliceBy, List.getD_cons_succ, List.take_succ_cons, List.sum_cons,
        List.getD_cons_succ, ih (l.drop n) j hj, List.drop_drop]

lemma sliceBy_flatten {α : Type} (l : List α) (ns : List ℕ)
    (h : ns.sum = l.length) :
    (sliceBy l ns).flatten = l := by
  induction ns generalizing l with
  | nil =>
    have hl : l = [] := List.length_eq_zero.mp (by simpa using h.symm)
    simp [sliceBy, hl]
  | cons n ns ih =>
    simp only [List.sum_cons] at h
    have hns : ns.sum = (l.drop n).length := by
      rw [List.length_drop]; omega
    simp only [sliceBy, List.flatten_cons, ih (l.drop n) hns]
    exact List.take_append_drop n l

lemma sum_take_succ_le (ns : List ℕ) (i : ℕ) : (ns.take (i + 1)).sum ≤ ns.sum := by
  conv_rhs => rw [← List.take_append_drop (i + 1) ns]
  rw [List.sum_append]
  exact Nat.le_add_right _ _

lemma sum_take_getD (ns : List ℕ) (i : ℕ) (hi : i < ns.length) :
    (ns.take (i + 1)).sum = (ns.take i).sum + ns.getD i 0 := by
  rw [List.take_succ, List.sum_append, List.getD_eq_getElem?_getD,
    List.getElem?_eq_getElem hi]
  simp

lemma sliceBy_getD_length {α : Type} (l : List α) (ns : List ℕ) (i : ℕ)
    (hi : i < ns.length) (h : ns.sum ≤ l.length) :
    ((sliceBy l ns).getD i []).length = ns.getD i 0 := by
  rw [sliceBy_getD l ns i hi, List.length_take, List.length_drop]
  have h1 : (ns.take i).sum + ns.getD i 0 ≤ ns.sum := by
    rw [← sum_take_getD ns i hi]
    exact sum_take_succ_le ns i
  omega

lemma length_create_ob_data_frame_rows {Ob Row : Type} (mkRow : Ob → ℕ → Row)
    (ob : Ob) (arm_indices : List ℕ) :
    (create_ob_data_frame_rows mkRow ob arm_indices).length = arm_indices.length := by
  simp [create_ob_data_frame_rows]

lemma create_rows_zip {Ob Row : Type} (mkRow : Ob → ℕ → Row)
    (armIdx : Ob → List ℕ) (obs : List Ob) :
    (obs.zip (obs.map armIdx)).map
        (fun p => create_ob_data_frame_rows mkRow p.1 p.2) =
      obs.map (fun ob => create_ob_data_frame_rows mkRow ob (armIdx ob)) := by
  induction obs with
  | nil => rfl
  | cons a t ih => simp [ih]

lemma getD_map_lt {α β : Type} (f : α → β) (l : List α) (d : β) (i : ℕ)
    (h : i < l.length) :
    (l.map f).getD i d = f (l.get ⟨i, h⟩) := by
  rw [List.getD_eq_getElem?_getD, List.getElem?_map, List.getElem?_eq_getElem h]
  rfl

/-! ### Data-frame cells (C4, C7) -/

lemma getD_eq_get {α : Type} (l : List α) (d : α) (i : ℕ) (h : i < l.length) :
    l.getD i d = l.get ⟨i, h⟩ := by
  rw [List.getD_eq_getElem?_getD, List.getElem?_eq_getElem h]
  rfl

lemma getD_eq_default {α : Type} (l : List α) (d : α) (i : ℕ) (h : l.length ≤ i) :
    l.getD i d = d := by
  rw [List.getD_eq_getElem?_getD, List.getElem?_eq_none h]
  rfl

lemma lookup_zip_eq_none {cols : List String} {row : List Val} {c : String}
    (h : c ∉ cols) : (cols.zip row).lookup c = none := by
  induction cols generalizing row with
  | nil => rfl
  | cons a t ih =>
    cases row with
    | nil => rfl
    | cons v r =>
      have hca : ¬(c = a) := fun he => h (he ▸ List.mem_cons_self a t)
      have h' : c ∉ t := fun hm => h (List.mem_cons_of_mem a hm)
      have hb : (c == a) = false := beq_eq_false_iff_ne.mpr hca
      simp only [List.zip_cons_cons, List.lookup_cons, hb]
      exact ih h'

lemma lookup_zip_map_key (f : String → Val) (cols : List String) (c : String) :
    (cols.map (fun x => (x, f x))).lookup c =
      if c ∈ cols then some (f c) else none := by
  induction cols with
  | nil => rfl
  | cons a t ih =>
    by_cases hca : c = a
    · subst hca
      simp [List.lookup_cons]
    · have hb : (c == a) = false := beq_eq_false_iff_ne.mpr hca
      simp [List.lookup_cons, hb, ih, hca]

lemma zip_self_map {α β : Type} (l : List α) (f : α → β) :
    l.zip (l.map f) = l.map (fun a => (a, f a)) := by
  induction l with
  | nil => rfl
  | cons a t ih => simp [ih]

lemma lookup_append_pairs (l1 l2 : List (String × Val)) (c : String) :
    (l1 ++ l2).lookup c =
      match l1.lookup c with
      | some v => some v
      | none => l2.lookup c := by
  induction l1 with
  | nil => rfl
  | cons p t ih =>
    rcases p with ⟨k, v⟩
    by_cases hck : c = k
    · subst hck
      simp [List.lookup_cons]
    · have hb : (c == k) = false := beq_eq_false_iff_ne.mpr hck
      simp [List.lookup_cons, hb, ih]

lemma cell_create_ob_data_frame (obs_columns : List String) (item_column : String)
    (ob : List (String × Val)) (arms : List ℤ) (i : ℕ) (hi : i < arms.length)
    (c : String) :
    (create_ob_data_frame obs_columns item_column ob arms).cell i c =
      if c ∈ obs_columns ++ [item_column] then
        some (if c = item_column then .int (arms.getD i 0) else lookupOb ob c)
      else none := by
  unfold DF.cell create_ob_data_frame
  simp only
  rw [getD_map_lt (fun a =>
    mk_ob_row item_column ob (obs_columns ++ [item_column]) a) arms [] i hi]
  unfold mk_ob_row
  rw [zip_self_map, lookup_zip_map_key, getD_eq_get arms 0 i hi]

lemma WF_create_ob_data_frame (obs_columns : List String) (item_column : String)
    (ob : List (String × Val)) (arms : List ℤ) :
    (create_ob_data_frame obs_columns item_column ob arms).WF := by
  intro r hr
  simp only [create_ob_data_frame, List.mem_map] at hr
  rcases hr with ⟨a, _, rfl⟩
  simp [mk_ob_row, create_ob_data_frame]

lemma rows_length_create_ob_data_frame (obs_columns : List String)
    (item_column : String) (ob : List (String × Val)) (arms : List ℤ) :
    (create_ob_data_frame obs_columns item_column ob arms).rows.length =
      arms.length := by
  simp [create_ob_data_frame]

lemma addColIfAbsent_of_mem {df : DF} {c : String} {v : Val} (h : c ∈ df.cols) :
    df.addColIfAbsent c v = df := by
  simp [DF.addColIfAbsent, h]

lemma cols_addColIfAbsent_not_mem {df : DF} {c : String} {v : Val}
    (h : c ∉ df.cols) : (df.addColIfAbsent c v).cols = df.cols ++ [c] := by
  simp [DF.addColIfAbsent, h]

lemma mem_cols_addColIfAbsent {df : DF} {c : String} {v : Val} {c' : String}
    (h : c' ∈ df.cols) : c' ∈ (df.addColIfAbsent c v).cols := by
  unfold DF.addColIfAbsent
  split
  · exact h
  · simp [h]

lemma mem_cols_addColIfAbsent_self (df : DF) (c : String) (v : Val) :
    c ∈ (df.addColIfAbsent c v).cols := by
  unfold DF.addColIfAbsent
  split
  · assumption
  · simp

lemma mem_cols_addColIfAbsent_elim {df : DF} {c : String} {v : Val} {c' : String}
    (h : c' ∈ (df.addColIfAbsent c v).cols) : c' ∈ df.cols ∨ c' = c := by
  unfold DF.addColIfAbsent at h
  split at h
  · exact Or.inl h
  · simpa using h

lemma not_mem_cols_addColIfAbsent {df : DF} {c : String} {v : Val} {c' : String}
    (h1 : c' ∉ df.cols) (h2 : c' ≠ c) : c' ∉ (df.addColIfAbsent c v).cols :=
  fun h => (mem_cols_addColIfAbsent_elim h).elim h1 h2

lemma WF_addColIfAbsent {df : DF} (hwf : df.WF) (c : String) (v : Val) :
    (df.addColIfAbsent c v).WF := by
  unfold DF.addColIfAbsent
  split
  · exact hwf
  · intro r hr
    simp only [List.mem_map] at hr
    rcases hr with ⟨r0, hr0, rfl⟩
    simp [hwf r0 hr0]

lemma rows_length_addColIfAbsent (df : DF) (c : String) (v : Val) :
    (df.addColIfAbsent c v).rows.length = df.rows.length := by
  unfold DF.addColIfAbsent
  split <;> simp

lemma cell_addColIfAbsent_ne {df : DF} (hwf : df.WF) {c : String} (v : Val)
    {c' : String} (hne : c' ≠ c) (i : ℕ) :
    (df.addColIfAbsent c v).cell i c' = df.cell i c' := by
  by_cases hmem : c ∈ df.cols
  · rw [addColIfAbsent_of_mem hmem]
  · unfold DF.addColIfAbsent
    rw [if_neg hmem]
    unfold DF.cell
    simp only
    by_cases hi : i < df.rows.length
    · rw [getD_map_lt (fun r => r ++ [v]) df.rows [] i hi,
        getD_eq_get df.rows [] i hi]
      have hlen : df.cols.length = (df.rows.get ⟨i, hi⟩).length :=
        (hwf _ (List.get_mem _ _ _)).symm
      rw [List.zip_append hlen, lookup_append_pairs]
      cases hcase : (df.cols.zip (df.rows.get ⟨i, hi⟩)).lookup c' with
      | some v' => rfl
      | none => simp [List.lookup_cons, beq_eq_false_iff_ne.mpr hne]
    · push_neg at hi
      rw [getD_eq_default _ _ i (by simpa using hi), getD_eq_default _ _ i hi]
      simp

lemma cell_addColIfAbsent_of_mem {df : DF} (hwf : df.WF) {c : String} (v : Val)
    {c' : String} (hc' : c' ∈ df.cols) (i : ℕ) :
    (df.addColIfAbsent c v).cell i c' = df.cell i c' := by
  by_cases hmem : c ∈ df.cols
  · rw [addColIfAbsent_of_mem hmem]
  · exact cell_addColIfAbsent_ne hwf v
      (fun he => hmem (by rw [← he]; exact hc')) i

lemma cell_addColIfAbsent_new {df : DF} (hwf : df.WF) {c : String} (v : Val)
    (hc : c ∉ df.cols) (i : ℕ) (hi : i < df.rows.length) :
    (df.addColIfAbsent c v).cell i c = some v := by
  unfold DF.addColIfAbsent
  rw [if_neg hc]
  unfold DF.cell
  simp only
  rw [getD_map_lt (fun r => r ++ [v]) df.rows [] i hi]
  have hlen : df.cols.length = (df.rows.get ⟨i, hi⟩).length :=
    (hwf _ (List.get_mem _ _ _)).symm
  rw [List.zip_append hlen, lookup_append_pairs, lookup_zip_eq_none hc]
  simp [List.lookup_cons]

lemma foldl_addCol_WF (aux : List String) :
    ∀ df : DF, df.WF →
      (aux.foldl (fun d c => d.addColIfAbsent c (.int 0)) df).WF := by
  induction aux with
  | nil => exact fun df hwf => hwf
  | cons a t ih => exact fun df hwf => ih _ (WF_addColIfAbsent hwf a _)

lemma foldl_addCol_rows_length (aux : List String) :
    ∀ df : DF,
      (aux.foldl (fun d c => d.addColIfAbsent c (.int 0)) df).rows.length =
        df.rows.length := by
  induction aux with
  | nil => exact fun df => rfl
  | cons a t ih =>
    intro df
    rw [List.foldl_cons, ih, rows_length_addColIfAbsent]

lemma foldl_addCol_cell_of_mem (aux : List String) :
    ∀ df : DF, df.WF → ∀ {c' : String}, c' ∈ df.cols → ∀ i : ℕ,
      (aux.foldl (fun d c => d.addColIfAbsent c (.int 0)) df).cell i c' =
        df.cell i c' := by
  induction aux with
  | nil => exact fun df _ _ _ _ => rfl
  | cons a t ih =>
    intro df hwf c' hc' i
    rw [List.foldl_cons,
      ih _ (WF_addColIfAbsent hwf a _) (mem_cols_addColIfAbsent hc'),
      cell_addColIfAbsent_of_mem hwf _ hc']

lemma foldl_addCol_cell_new (aux : List String) :
    ∀ df : DF, df.WF → ∀ {c : String}, c ∈ aux → c ∉ df.cols →
      ∀ i : ℕ, i < df.rows.length →
      (aux.foldl (fun d c => d.addColIfAbsent c (.int 0)) df).cell i c =
        some (.int 0) := by
  induction aux with
  | nil => exact fun df _ c hc => absurd hc (List.not_mem_nil c)
  | cons a t ih =>
    intro df hwf c hc hcc i hi
    rw [List.foldl_cons]
    by_cases hca : c = a
    · subst hca
      rw [foldl_addCol_cell_of_mem t _ (WF_addColIfAbsent hwf c _)
        (mem_cols_addColIfAbsent_self df c _) i]
      exact cell_addColIfAbsent_new hwf _ hcc i hi
    · have hct : c ∈ t := by
        rcases List.mem_cons.mp hc with h | h
        · exact absurd h hca
        · exact h
      exact ih _ (WF_addColIfAbsent hwf a _) hct
        (not_mem_cols_addColIfAbsent hcc hca) i
        (by rw [rows_length_addColIfAbsent]; exact hi)

/-! ### Column assignment and `_prepare_for_agent` projections (C7) -/

lemma setCol_cols_not_mem {df : DF} {c : String} {vs : List Val}
    (h : c ∉ df.cols) : (df.setCol c vs).cols = df.cols ++ [c] := by
  simp [DF.setCol, h]

lemma setCol_rows_not_mem {df : DF} {c : String} {vs : List Val}
    (h : c ∉ df.cols) :
    (df.setCol c vs).rows = (df.rows.zip vs).map (fun p => p.1 ++ [p.2]) := by
  simp [DF.setCol, h]

lemma setCol_rows_length {df : DF} {c : String} {vs : List Val}
    (h : c ∉ df.cols) (hlen : vs.length = df.rows.length) :
    (df.setCol c vs).rows.length = df.rows.length := by
  rw [setCol_rows_not_mem h, List.length_map, List.length_zip, hlen]
  simp

lemma WF_setCol_not_mem {df : DF} (hwf : df.WF) {c : String} {vs : List Val}
    (h : c ∉ df.cols) : (df.setCol c vs).WF := by
  intro r hr
  rw [setCol_cols_not_mem h]
  rw [setCol_rows_not_mem h] at hr
  simp only [List.mem_map] at hr
  rcases hr with ⟨⟨r0, v0⟩, hp, rfl⟩
  have hmem := List.of_mem_zip hp
  simp [hwf r0 hmem.1]

lemma zip_get_pair {α β : Type} (l : List α) (r : List β) (i : ℕ)
    (hiz : i < (l.zip r).length) (hl : i < l.length) (hr : i < r.length) :
    (l.zip r).get ⟨i, hiz⟩ = (l.get ⟨i, hl⟩, r.get ⟨i, hr⟩) := by
  simp [List.get_eq_getElem, List.getElem_zip]

lemma cell_setCol_not_mem_ne {df : DF} (hwf : df.WF) {c : String}
    {vs : List Val} (h : c ∉ df.cols) (hlen : vs.length = df.rows.length)
    {c' : String} (hne : c' ≠ c) (i : ℕ) :
    (df.setCol c vs).cell i c' = df.cell i c' := by
  unfold DF.cell
  rw [setCol_cols_not_mem h, setCol_rows_not_mem h]
  by_cases hi : i < df.rows.length
  · have hiz : i < (df.rows.zip vs).length := by
      rw [List.length_zip, hlen]
      simpa using hi
    have hvi : i < vs.length := by rw [hlen]; exact hi
    rw [getD_map_lt (fun p => p.1 ++ [p.2]) (df.rows.zip vs) [] i hiz,
      getD_eq_get df.rows [] i hi, zip_get_pair df.rows vs i hiz hi hvi]
    have hlen2 : df.cols.length = (df.rows.get ⟨i, hi⟩).length :=
      (hwf _ (List.get_mem _ _ _)).symm
    rw [List.zip_append hlen2, lookup_append_pairs]
    cases hcase : (df.cols.zip (df.rows.get ⟨i, hi⟩)).lookup c' with
    | some v' => rfl
    | none => simp [List.lookup_cons, beq_eq_false_iff_ne.mpr hne]
  · push_neg at hi
    have hi2 : ((df.rows.zip vs).map (fun p => p.1 ++ [p.2])).length ≤ i := by
      rw [List.length_map, List.length_zip, hlen]
      simpa using hi
    rw [getD_eq_default _ _ i hi2, getD_eq_default _ _ i hi]
    simp

lemma setCol_row_take_le {df : DF} (hwf : df.WF) {c : String} {vs : List Val}
    (h : c ∉ df.cols) (hlen : vs.length = df.rows.length) (i : ℕ)
    (hi : i < df.rows.length) (n : ℕ) (hn : n ≤ df.cols.length) :
    ((df.setCol c vs).rows.getD i []).take n = (df.rows.getD i []).take n := by
  rw [setCol_rows_not_mem h]
  have hiz : i < (df.rows.zip vs).length := by
    rw [List.length_zip, hlen]
    simpa using hi
  have hvi : i < vs.length := by rw [hlen]; exact hi
  rw [getD_map_lt (fun p => p.1 ++ [p.2]) (df.rows.zip vs) [] i hiz,
    getD_eq_get df.rows [] i hi, zip_get_pair df.rows vs i hiz hi hvi]
  exact List.take_append_of_le_length
    (by rw [← hwf _ (List.get_mem _ _ _)] at hn; exact hn)

lemma prepare_for_agent_fst_eq {Ob Row Ctx : Type} (armIdx : Ob → List ℕ)
    (mkRow : Ob → ℕ → Row) (rowCtx : Row → Ctx)
    (reward_model : Option (Row → ℚ))
    (calc_scores : List ℕ → List Ctx → List ℚ) (obs : List Ob) :
    (prepare_for_agent armIdx mkRow rowCtx reward_model calc_scores obs).1 =
      sliceBy
        ((obs.map fun ob =>
          create_ob_data_frame_rows mkRow ob (armIdx ob)).flatten.map rowCtx)
        ((obs.map fun ob =>
          create_ob_data_frame_rows mkRow ob (armIdx ob)).map List.length) := by
  simp only [prepare_for_agent, create_rows_zip]

lemma prepare_for_agent_fst_length {Ob Row Ctx : Type} (armIdx : Ob → List ℕ)
    (mkRow : Ob → ℕ → Row) (rowCtx : Row → Ctx)
    (reward_model : Option (Row → ℚ))
    (calc_scores : List ℕ → List Ctx → List ℚ) (obs : List Ob) :
    (prepare_for_agent armIdx mkRow rowCtx reward_model calc_scores
      obs).1.length = obs.length := by
  rw [prepare_for_agent_fst_eq, sliceBy_length, List.length_map,
    List.length_map]

lemma prepare_for_agent_snd_length {Ob Row Ctx : Type} (armIdx : Ob → List ℕ)
    (mkRow : Ob → ℕ → Row) (rowCtx : Row → Ctx)
    (reward_model : Option (Row → ℚ))
    (calc_scores : List ℕ → List Ctx → List ℚ) (obs : List Ob) :
    (prepare_for_agent armIdx mkRow rowCtx reward_model calc_scores
      obs).2.1.length = obs.length :=
  List.length_map obs armIdx

lemma prepare_for_agent_trd_length {Ob Row Ctx : Type} (armIdx : Ob → List ℕ)
    (mkRow : Ob → ℕ → Row) (rowCtx : Row → Ctx)
    (reward_model : Option (Row → ℚ))
    (calc_scores : List ℕ → List Ctx → List ℚ) (obs : List Ob) :
    (prepare_for_agent armIdx mkRow rowCtx reward_model calc_scores
      obs).2.2.length = obs.length := by
  cases reward_model with
  | some score =>
    simp only [prepare_for_agent, create_rows_zip]
    rw [sliceBy_length, List.length_map, List.length_map]
  | none =>
    simp only [prepare_for_agent, create_rows_zip]
    rw [List.length_map, List.length_zip, sliceBy_length]
    simp

lemma setCol3_frame (df : DF) (hwf : df.WF) (c1 c2 c3 : String)
    (h1 : c1 ∉ df.cols) (h2 : c2 ∉ df.cols) (h3 : c3 ∉ df.cols)
    (h21 : c2 ≠ c1) (h31 : c3 ≠ c1) (h32 : c3 ≠ c2)
    (vs1 vs2 vs3 : List Val)
    (l1 : vs1.length = df.rows.length) (l2 : vs2.length = df.rows.length)
    (l3 : vs3.length = df.rows.length) :
    (((df.setCol c1 vs1).setCol c2 vs2).setCol c3 vs3).cols =
      df.cols ++ [c1, c2, c3] ∧
    (((df.setCol c1 vs1).setCol c2 vs2).setCol c3 vs3).rows.length =
      df.rows.length ∧
    (∀ i : ℕ, ∀ c' ∈ df.cols,
      (((df.setCol c1 vs1).setCol c2 vs2).setCol c3 vs3).cell i c' =
        df.cell i c') ∧
    (∀ i, i < df.rows.length →
      ((((df.setCol c1 vs1).setCol c2 vs2).setCol c3 vs3).rows.getD
        i []).take df.cols.length = df.rows.getD i []) := by
  have hc1 : (df.setCol c1 vs1).cols = df.cols ++ [c1] :=
    setCol_cols_not_mem h1
  have h2' : c2 ∉ (df.setCol c1 vs1).cols := by
    rw [hc1]
    simp [h2, h21]
  have hwf1 : (df.setCol c1 vs1).WF := WF_setCol_not_mem hwf h1
  have hr1 : (df.setCol c1 vs1).rows.length = df.rows.length :=
    setCol_rows_length h1 l1
  have hc2 : ((df.setCol c1 vs1).setCol c2 vs2).cols =
      (df.setCol c1 vs1).cols ++ [c2] := setCol_cols_not_mem h2'
  have h3' : c3 ∉ ((df.setCol c1 vs1).setCol c2 vs2).cols := by
    rw [hc2, hc1]
    simp [h3, h31, h32]
  have l2' : vs2.length = (df.setCol c1 vs1).rows.length := by rw [hr1, l2]
  have hwf2 : ((df.setCol c1 vs1).setCol c2 vs2).WF :=
    WF_setCol_not_mem hwf1 h2'
  have hr2 : ((df.setCol c1 vs1).setCol c2 vs2).rows.length =
      df.rows.length := by
    rw [setCol_rows_length h2' l2', hr1]
  have l3' : vs3.length = ((df.setCol c1 vs1).setCol c2 vs2).rows.length := by
    rw [hr2, l3]
  refine ⟨?_, ?_, ?_, ?_⟩
  · rw [setCol_cols_not_mem h3', hc2, hc1]
    simp
  · rw [setCol_rows_length h3' l3', hr2]
  · intro i c' hc'
    have hne1 : c' ≠ c1 := fun he => h1 (he ▸ hc')
    have hne2 : c' ≠ c2 := fun he => h2 (he ▸ hc')
    have hne3 : c' ≠ c3 := fun he => h3 (he ▸ hc')
    rw [cell_setCol_not_mem_ne hwf2 h3' l3' hne3 i,
      cell_setCol_not_mem_ne hwf1 h2' l2' hne2 i,
      cell_setCol_not_mem_ne hwf h1 l1 hne1 i]
  · intro i hi
    have hi1 : i < (df.setCol c1 vs1).rows.length := by rw [hr1]; exact hi
    have hi2 : i < ((df.setCol c1 vs1).setCol c2 vs2).rows.length := by
      rw [hr2]; exact hi
    rw [setCol_row_take_le hwf2 h3' l3' i hi2 df.cols.length
        (by rw [hc2, hc1]; simp),
      setCol_row_take_le hwf1 h2' l2' i hi1 df.cols.length
        (by rw [hc1]; simp),
      setCol_row_take_le hwf h1 l1 i hi df.cols.length le_rfl,
      getD_eq_get df.rows [] i hi]
    have hlen := hwf _ (List.get_mem df.rows i hi)
    rw [← hlen, List.take_length]

/-- **C1.** For every non-empty list of observations, `_prepare_for_agent`
returns three lists (arm contexts, arm indices, arm scores), each with one
entry per observation; for the `i`-th observation the arm-scores entry and
the arm-contexts entry each have one element per arm in the `i`-th
arm-indices entry; and with a reward model present the `i`-th scores entry
is the contiguous slice of the flattened model outputs over the
concatenated per-arm dataset starting at the total arm count of the
preceding observations, so the slices partition the scores in observation
order. -/
theorem C1_prepare_for_agent_scores_partition {Ob Row Ctx : Type}
    (armIdx : Ob → List ℕ) (mkRow : Ob → ℕ → Row) (rowCtx : Row → Ctx)
    (score : Row → ℚ) (calc_scores : List ℕ → List Ctx → List ℚ)
    (obs : List Ob) (hne : obs ≠ []) :
    (prepare_for_agent armIdx mkRow rowCtx (some score) calc_scores obs).1.length
        = obs.length ∧
    (prepare_for_agent armIdx mkRow rowCtx (some score) calc_scores obs).2.1.length
        = obs.length ∧
    (prepare_for_agent armIdx mkRow rowCtx (some score) calc_scores obs).2.2.length
        = obs.length ∧
    (∀ i, i < obs.length →
      (((prepare_for_agent armIdx mkRow rowCtx (some score) calc_scores obs).2.2.getD
          i []).length =
        (((prepare_for_agent armIdx mkRow rowCtx (some score) calc_scores obs).2.1.getD
          i []).length)) ∧
      ((((prepare_for_agent armIdx mkRow rowCtx (some score) calc_scores obs).1.getD
          i []).length) =
        (((prepare_for_agent armIdx mkRow rowCtx (some score) calc_scores obs).2.1.getD
          i []).length)) ∧
      ((prepare_for_agent armIdx mkRow rowCtx (some score) calc_scores obs).2.2.getD
          i [] =
        ((((obs.map (fun ob => create_ob_data_frame_rows mkRow ob (armIdx ob))).flatten.map
            score).drop
          ((((prepare_for_agent armIdx mkRow rowCtx (some score) calc_scores obs).2.1.take
              i).map List.length).sum)).take
          (((prepare_for_agent armIdx mkRow rowCtx (some score) calc_scores obs).2.1.getD
            i []).length)))) ∧
    ((prepare_for_agent armIdx mkRow rowCtx (some score) calc_scores obs).2.2.flatten =
      (obs.map (fun ob => create_ob_data_frame_rows mkRow ob (armIdx ob))).flatten.map
        score) := by
  have hP1 : (prepare_for_agent armIdx mkRow rowCtx (some score) calc_scores obs).1 =
      sliceBy
        (((obs.map fun ob => create_ob_data_frame_rows mkRow ob (armIdx ob)).flatten).map
          rowCtx)
        ((obs.map fun ob => create_ob_data_frame_rows mkRow ob (armIdx ob)).map
          List.length) := by
    simp only [prepare_for_agent, create_rows_zip]
  have hP2 : (prepare_for_agent armIdx mkRow rowCtx (some score) calc_scores obs).2.1 =
      obs.map armIdx := rfl
  have hP3 : (prepare_for_agent armIdx mkRow rowCtx (some score) calc_scores obs).2.2 =
      sliceBy
        (((obs.map fun ob => create_ob_data_frame_rows mkRow ob (armIdx ob)).flatten).map
          score)
        ((obs.map fun ob => create_ob_data_frame_rows mkRow ob (armIdx ob)).map
          List.length) := by
    simp only [prepare_for_agent, create_rows_zip]
  have hns : (obs.map fun ob => create_ob_data_frame_rows mkRow ob (armIdx ob)).map
      List.length = (obs.map armIdx).map List.length := by
    simp [List.map_map, Function.comp_def, length_create_ob_data_frame_rows,
      create_ob_data_frame_rows]
  have hnslen : ((obs.map fun ob =>
      create_ob_data_frame_rows mkRow ob (armIdx ob)).map List.length).length =
      obs.length := by
    simp
  have hsum : ∀ g : Row → ℚ,
      (((obs.map fun ob => create_ob_data_frame_rows mkRow ob (armIdx ob)).flatten).map
        g).length =
      ((obs.map fun ob => create_ob_data_frame_rows mkRow ob (armIdx ob)).map
        List.length).sum := by
    intro g
    rw [List.length_map, List.length_flatten]
  have hgetD : ∀ i (h : i < obs.length),
      ((obs.map fun ob => create_ob_data_frame_rows mkRow ob (armIdx ob)).map
        List.length).getD i 0 = ((obs.map armIdx).getD i []).length := by
    intro i h
    rw [hns]
    have h2 : i < (obs.map armIdx).length := by simpa using h
    rw [getD_map_lt List.length (obs.map armIdx) 0 i h2]
    rw [List.getD_eq_getElem?_getD, List.getElem?_eq_getElem h2]
    rfl
  refine ⟨?_, ?_, ?_, ?_, ?_⟩
  · rw [hP1, sliceBy_length, hnslen]
  · rw [hP2, List.length_map]
  · rw [hP3, sliceBy_length, hnslen]
  · intro i hi
    have hi' : i < ((obs.map fun ob =>
        create_ob_data_frame_rows mkRow ob (armIdx ob)).map List.length).length := by
      rw [hnslen]; exact hi
    refine ⟨?_, ?_, ?_⟩
    · rw [hP3, hP2, sliceBy_getD_length _ _ i hi' (le_of_eq (hsum score).symm),
        hgetD i hi]
    · rw [hP1, hP2]
      rw [sliceBy_getD_length _ _ i hi' ?hlen, hgetD i hi]
      case hlen =>
        rw [List.length_map, List.length_flatten]
    · rw [hP3, hP2, sliceBy_getD _ _ i hi']
      rw [List.map_take List.length (obs.map armIdx) i, ← hns, hgetD i hi]
  · rw [hP3, sliceBy_flatten _ _ (hsum score).symm]

/-- Witness for C1: the scores of the whole concatenated dataset are
partitioned back in observation order, at a two-observation instance with
the identity scoring of integer rows. -/
theorem C1_prepare_for_agent_scores_partition_witness :
    (prepare_for_agent (fun o => [o, o + 1]) (fun o a => 10 * o + a) id
        (some (fun r => (r : ℚ))) (fun _ _ => []) [1, 2]).2.2.flatten =
      (([1, 2].map
        (fun ob => create_ob_data_frame_rows (fun o a => 10 * o + a) ob
          [ob, ob + 1])).flatten.map (fun r => (r : ℚ))) :=
  (C1_prepare_for_agent_scores_partition (fun o => [o, o + 1])
    (fun o a => 10 * o + a) id (fun r => (r : ℚ)) (fun _ _ => []) [1, 2]
    (by decide)).2.2.2.2

/-- **C4.** `_create_ob_data_frame` returns a frame with one row per arm
index, in the order of the arm-indices list; each row carries the
observation's values at the user and other input columns, the item column
equals that row's arm index, the hist-view and hist-output columns are 0
when absent, the output column is 1 when absent, and every auxiliary output
column is 0 when absent. -/
theorem C4_create_ob_data_frame_rows_cells (obs_columns : List String)
    (item_column hist_view_column hist_output_column output_column : String)
    (aux_output_columns : List String)
    (ob : List (String × Val)) (arm_indices : List ℤ) :
    (create_ob_data_frame_full obs_columns item_column hist_view_column
        hist_output_column output_column aux_output_columns ob
        arm_indices).rows.length = arm_indices.length ∧
    (∀ i, i < arm_indices.length →
      ((create_ob_data_frame_full obs_columns item_column hist_view_column
          hist_output_column output_column aux_output_columns ob
          arm_indices).cell i item_column =
        some (.int (arm_indices.getD i 0))) ∧
      (∀ c, c ∈ obs_columns → c ≠ item_column →
        (create_ob_data_frame_full obs_columns item_column hist_view_column
          hist_output_column output_column aux_output_columns ob
          arm_indices).cell i c = some (lookupOb ob c)) ∧
      (hist_view_column ∉ obs_columns ++ [item_column] →
        (create_ob_data_frame_full obs_columns item_column hist_view_column
          hist_output_column output_column aux_output_columns ob
          arm_indices).cell i hist_view_column = some (.int 0)) ∧
      (hist_output_column ∉ obs_columns ++ [item_column] →
        (create_ob_data_frame_full obs_columns item_column hist_view_column
          hist_output_column output_column aux_output_columns ob
          arm_indices).cell i hist_output_column = some (.int 0)) ∧
      (output_column ∉ obs_columns ++ [item_column] →
        output_column ≠ hist_view_column → output_column ≠ hist_output_column →
        (create_ob_data_frame_full obs_columns item_column hist_view_column
          hist_output_column output_column aux_output_columns ob
          arm_indices).cell i output_column = some (.int 1)) ∧
      (∀ c, c ∈ aux_output_columns → c ∉ obs_columns ++ [item_column] →
        c ≠ hist_view_column → c ≠ hist_output_column → c ≠ output_column →
        (create_ob_data_frame_full obs_columns item_column hist_view_column
          hist_output_column output_column aux_output_columns ob
          arm_indices).cell i c = some (.int 0))) := by
  have hfull : create_ob_data_frame_full obs_columns item_column
      hist_view_column hist_output_column output_column aux_output_columns ob
      arm_indices =
      aux_output_columns.foldl (fun d c => d.addColIfAbsent c (.int 0))
        ((((create_ob_data_frame obs_columns item_column ob
              arm_indices).addColIfAbsent hist_view_column
            (.int 0)).addColIfAbsent hist_output_column
          (.int 0)).addColIfAbsent output_column (.int 1)) := rfl
  simp only [hfull]
  set df0 := create_ob_data_frame obs_columns item_column ob arm_indices
    with hdf0
  set df1 := df0.addColIfAbsent hist_view_column (.int 0) with hdf1
  set df2 := df1.addColIfAbsent hist_output_column (.int 0) with hdf2
  set df3 := df2.addColIfAbsent output_column (.int 1) with hdf3
  have hwf0 : df0.WF := WF_create_ob_data_frame _ _ _ _
  have hwf1 : df1.WF := WF_addColIfAbsent hwf0 _ _
  have hwf2 : df2.WF := WF_addColIfAbsent hwf1 _ _
  have hwf3 : df3.WF := WF_addColIfAbsent hwf2 _ _
  have hcols0 : df0.cols = obs_columns ++ [item_column] := rfl
  have hlen0 : df0.rows.length = arm_indices.length :=
    rows_length_create_ob_data_frame _ _ _ _
  have hlen1 : df1.rows.length = arm_indices.length := by
    rw [hdf1, rows_length_addColIfAbsent, hlen0]
  have hlen2 : df2.rows.length = arm_indices.length := by
    rw [hdf2, rows_length_addColIfAbsent, hlen1]
  have hlen3 : df3.rows.length = arm_indices.length := by
    rw [hdf3, rows_length_addColIfAbsent, hlen2]
  constructor
  · rw [foldl_addCol_rows_length, hlen3]
  intro i hi
  refine ⟨?_, ?_, ?_, ?_, ?_, ?_⟩
  · -- item column
    have hm0 : item_column ∈ df0.cols := by
      rw [hcols0]; simp
    have hm1 : item_column ∈ df1.cols := mem_cols_addColIfAbsent hm0
    have hm2 : item_column ∈ df2.cols := mem_cols_addColIfAbsent hm1
    have hm3 : item_column ∈ df3.cols := mem_cols_addColIfAbsent hm2
    rw [foldl_addCol_cell_of_mem _ _ hwf3 hm3, hdf3,
      cell_addColIfAbsent_of_mem hwf2 _ hm2, hdf2,
      cell_addColIfAbsent_of_mem hwf1 _ hm1, hdf1,
      cell_addColIfAbsent_of_mem hwf0 _ hm0, hdf0,
      cell_create_ob_data_frame _ _ _ _ i hi]
    simp
  · -- observation columns
    intro c hc hcne
    have hm0 : c ∈ df0.cols := by
      rw [hcols0]; exact List.mem_append_left _ hc
    have hm1 : c ∈ df1.cols := mem_cols_addColIfAbsent hm0
    have hm2 : c ∈ df2.cols := mem_cols_addColIfAbsent hm1
    have hm3 : c ∈ df3.cols := mem_cols_addColIfAbsent hm2
    rw [foldl_addCol_cell_of_mem _ _ hwf3 hm3, hdf3,
      cell_addColIfAbsent_of_mem hwf2 _ hm2, hdf2,
      cell_addColIfAbsent_of_mem hwf1 _ hm1, hdf1,
      cell_addColIfAbsent_of_mem hwf0 _ hm0, hdf0,
      cell_create_ob_data_frame _ _ _ _ i hi]
    simp [hc, hcne]
  · -- hist-view column
    intro habs
    have h0 : hist_view_column ∉ df0.cols := by rw [hcols0]; exact habs
    have hnew : df1.cell i hist_view_column = some (.int 0) := by
      rw [hdf1]
      exact cell_addColIfAbsent_new hwf0 _ h0 i (by rw [hlen0]; exact hi)
    have hm1 : hist_view_column ∈ df1.cols := by
      rw [hdf1]; exact mem_cols_addColIfAbsent_self _ _ _
    have hm2 : hist_view_column ∈ df2.cols := mem_cols_addColIfAbsent hm1
    have hm3 : hist_view_column ∈ df3.cols := mem_cols_addColIfAbsent hm2
    rw [foldl_addCol_cell_of_mem _ _ hwf3 hm3, hdf3,
      cell_addColIfAbsent_of_mem hwf2 _ hm2, hdf2,
      cell_addColIfAbsent_of_mem hwf1 _ hm1, hnew]
  · -- hist-output column
    intro habs
    have h0 : hist_output_column ∉ df0.cols := by rw [hcols0]; exact habs
    by_cases hx : hist_output_column ∈ df1.cols
    · -- only possible when it coincides with the hist-view column just added
      have hov : hist_output_column = hist_view_column := by
        rcases mem_cols_addColIfAbsent_elim (hdf1 ▸ hx) with h | h
        · exact absurd h h0
        · exact h
      have h0v : hist_view_column ∉ df0.cols := by
        rw [← hov]; exact h0
      have hnew : df1.cell i hist_output_column = some (.int 0) := by
        rw [hov, hdf1]
        exact cell_addColIfAbsent_new hwf0 _ h0v i (by rw [hlen0]; exact hi)
      have hm2 : hist_output_column ∈ df2.cols := mem_cols_addColIfAbsent hx
      have hm3 : hist_output_column ∈ df3.cols := mem_cols_addColIfAbsent hm2
      rw [foldl_addCol_cell_of_mem _ _ hwf3 hm3, hdf3,
        cell_addColIfAbsent_of_mem hwf2 _ hm2, hdf2,
        cell_addColIfAbsent_of_mem hwf1 _ hx, hnew]
    · have hnew : df2.cell i hist_output_column = some (.int 0) := by
        rw [hdf2]
        exact cell_addColIfAbsent_new hwf1 _ hx i (by rw [hlen1]; exact hi)
      have hm2 : hist_output_column ∈ df2.cols := by
        rw [hdf2]; exact mem_cols_addColIfAbsent_self _ _ _
      have hm3 : hist_output_column ∈ df3.cols := mem_cols_addColIfAbsent hm2
      rw [foldl_addCol_cell_of_mem _ _ hwf3 hm3, hdf3,
        cell_addColIfAbsent_of_mem hwf2 _ hm2, hnew]
  · -- output column
    intro habs hnv hno
    have h0 : output_column ∉ df0.cols := by rw [hcols0]; exact habs
    have h1 : output_column ∉ df1.cols := by
      rw [hdf1]; exact not_mem_cols_addColIfAbsent h0 hnv
    have h2 : output_column ∉ df2.cols := by
      rw [hdf2]; exact not_mem_cols_addColIfAbsent h1 hno
    have hnew : df3.cell i output_column = some (.int 1) := by
      rw [hdf3]
      exact cell_addColIfAbsent_new hwf2 _ h2 i (by rw [hlen2]; exact hi)
    have hm3 : output_column ∈ df3.cols := by
      rw [hdf3]; exact mem_cols_addColIfAbsent_self _ _ _
    rw [foldl_addCol_cell_of_mem _ _ hwf3 hm3, hnew]
  · -- auxiliary output columns
    intro c hc habs hnv hno hnout
    have h0 : c ∉ df0.cols := by rw [hcols0]; exact habs
    have h1 : c ∉ df1.cols := by
      rw [hdf1]; exact not_mem_cols_addColIfAbsent h0 hnv
    have h2 : c ∉ df2.cols := by
      rw [hdf2]; exact not_mem_cols_addColIfAbsent h1 hno
    have h3 : c ∉ df3.cols := by
      rw [hdf3]; exact not_mem_cols_addColIfAbsent h2 hnout
    exact foldl_addCol_cell_new _ _ hwf3 hc h3 i (by rw [hlen3]; exact hi)

/-- Witness for C4 at a concrete observation frame with two arms. -/
theorem C4_create_ob_data_frame_rows_cells_witness :
    (create_ob_data_frame_full ["user"] "item" "hv" "ho" "out" ["aux1"]
        [("user", .int 7)] [4, 9]).cell 0 "item" =
      some (.int ([(4 : ℤ), 9].getD 0 0)) :=
  ((C4_create_ob_data_frame_rows_cells ["user"] "item" "hv" "ho" "out"
    ["aux1"] [("user", .int 7)] [4, 9]).2 0 (by decide)).1

/-- **C5.** The value written to the `action_scores` column by
`_save_test_set_predictions` is a permutation of the observation's arm
scores arranged in non-increasing order: the scores are sorted by value
(`sorted` then `reversed`), independently of the order of the ranked
actions. -/
theorem C5_action_scores_sorted_desc (l : List ℚ) :
    (action_scores l).Perm l ∧ List.Sorted (fun a b => b ≤ a) (action_scores l) := by
  constructor
  · exact (List.reverse_perm _).trans (List.perm_insertionSort _ l)
  · simp only [action_scores]
    exact List.pairwise_reverse.mpr (List.sorted_insertionSort (· ≤ ·) l)

/-- **C6.** If `train()` raises during `_BaseModelTraining.run`, the task's
output directory is removed before the exception is re-raised (final state
`none`); if `train()` returns, the output directory holds exactly the
completed output. A failed run leaves no output: the directory exists
complete or is absent, never partial. -/
theorem C6_run_removes_output_on_failure {ε : Type}
    (train : List String → Except ε (List String))
    (initial : Option (List String)) :
    (∀ e, train (save_params (initial.getD [])) = .error e →
      task_run train initial = (.error e, none)) ∧
    (∀ d, train (save_params (initial.getD [])) = .ok d →
      task_run train initial = (.ok (), some d)) := by
  constructor
  · intro e he
    simp [task_run, he]
  · intro d hd
    simp [task_run, hd]

/-- Witness for C6 at a concrete failing `train`. -/
theorem C6_run_removes_output_on_failure_witness :
    task_run (fun _ => (.error 0 : Except ℕ (List String))) (some ["stale"]) =
      (.error 0, none) :=
  (C6_run_removes_output_on_failure (fun _ => .error 0) (some ["stale"])).1 0 rfl

/-- **C7.** `_save_test_set_predictions` adds exactly the three columns
`sorted_actions`, `prob_actions` and `action_scores` to the test data frame;
every pre-existing column, the row count and the row order are unchanged in
the frame it writes out. -/
theorem C7_save_test_set_predictions_adds_three_columns {Row Ctx : Type}
    (prep : List (String × Val) → List (String × Val))
    (armIdx : List (String × Val) → List ℕ)
    (mkRow : List (String × Val) → ℕ → Row) (rowCtx : Row → Ctx)
    (reward_model : Option (Row → ℚ))
    (calc_scores : List ℕ → List Ctx → List ℚ)
    (rank : List ℕ → List Ctx → List ℚ → List ℕ × List ℚ)
    (df : DF) (hwf : df.WF)
    (h1 : "sorted_actions" ∉ df.cols) (h2 : "prob_actions" ∉ df.cols)
    (h3 : "action_scores" ∉ df.cols) :
    (save_test_set_predictions prep armIdx mkRow rowCtx reward_model
        calc_scores rank df).cols =
      df.cols ++ ["sorted_actions", "prob_actions", "action_scores"] ∧
    (save_test_set_predictions prep armIdx mkRow rowCtx reward_model
        calc_scores rank df).rows.length = df.rows.length ∧
    (∀ i : ℕ, ∀ c ∈ df.cols,
      (save_test_set_predictions prep armIdx mkRow rowCtx reward_model
        calc_scores rank df).cell i c = df.cell i c) ∧
    (∀ i, i < df.rows.length →
      ((save_test_set_predictions prep armIdx mkRow rowCtx reward_model
          calc_scores rank df).rows.getD i []).take df.cols.length =
        df.rows.getD i []) := by
  have hobs : ((df.rows.map (fun r => df.cols.zip r)).map prep).length =
      df.rows.length := by
    simp
  have hranked : (((prepare_for_agent armIdx mkRow rowCtx reward_model
        calc_scores ((df.rows.map (fun r => df.cols.zip r)).map prep)).2.1.zip
      ((prepare_for_agent armIdx mkRow rowCtx reward_model calc_scores
        ((df.rows.map (fun r => df.cols.zip r)).map prep)).1.zip
       (prepare_for_agent armIdx mkRow rowCtx reward_model calc_scores
        ((df.rows.map (fun r => df.cols.zip r)).map prep)).2.2)).map
      (fun q => rank q.1 q.2.1 q.2.2)).length = df.rows.length := by
    rw [List.length_map, List.length_zip, List.length_zip,
      prepare_for_agent_snd_length, prepare_for_agent_fst_length,
      prepare_for_agent_trd_length, hobs]
    simp
  exact setCol3_frame df hwf _ _ _ h1 h2 h3 (by decide) (by decide)
    (by decide) _ _ _
    (by rw [List.length_map, hranked])
    (by rw [List.length_map, hranked])
    (by rw [List.length_map, List.length_map, prepare_for_agent_trd_length,
      hobs])

/-- Witness for C7 at a concrete one-column, one-row test frame. -/
theorem C7_save_test_set_predictions_adds_three_columns_witness :
    (save_test_set_predictions id (fun _ => [0]) (fun _ a => a) id
        (some (fun _ => (0 : ℚ))) (fun _ _ => [])
        (fun is _ ss => (is, ss)) ⟨["x"], [[Val.int 5]]⟩).cols =
      ["x"] ++ ["sorted_actions", "prob_actions", "action_scores"] :=
  (C7_save_test_set_predictions_adds_three_columns id (fun _ => [0])
    (fun _ a => a) id (some (fun _ => (0 : ℚ))) (fun _ _ => [])
    (fun is _ ss => (is, ss)) ⟨["x"], [[Val.int 5]]⟩
    (by intro r hr; simp at hr; simp [hr])
    (by decide) (by decide) (by decide)).1

/-- **C8.** The `ContextualBandit` constructor accepts exactly two predictor
names: `"logistic_regression"` yields a `LogisticRegression` over the summed
item, context and user input dimensions, `"factorization_machine"` yields a
`DeepFactorizationMachine`, and every other string raises
`NotImplementedError`. -/
theorem C8_predictor_dispatch (n_factors : ℕ) (dims : ℕ × ℕ × ℕ)
    (fm_order : ℕ) (fm_deep : Bool) (fm_hidden_layers : List ℕ) :
    contextual_bandit_build_predictor "logistic_regression" n_factors dims
        fm_order fm_deep fm_hidden_layers =
      .ok (.logisticRegression (dims.2.1 + dims.2.2 + dims.1)) ∧
    contextual_bandit_build_predictor "factorization_machine" n_factors dims
        fm_order fm_deep fm_hidden_layers =
      .ok (.factorizationMachine n_factors dims.2.2 dims.2.1 dims.1
        fm_order fm_deep fm_hidden_layers) ∧
    (∀ s : String, s ≠ "logistic_regression" → s ≠ "factorization_machine" →
      contextual_bandit_build_predictor s n_factors dims
        fm_order fm_deep fm_hidden_layers = .error ()) := by
  refine ⟨rfl, rfl, ?_⟩
  intro s h1 h2
  simp [contextual_bandit_build_predictor, h1, h2]

/-- Witness for C8 at a concrete unknown predictor name and concrete
constructor dimensions. -/
theorem C8_predictor_dispatch_witness :
    contextual_bandit_build_predictor "linucb" 8
      (contextual_bandit_input_dims 8 true true false 64 [1, 3, 5] true true false 0)
      1 false [64, 32] = .error () :=
  (C8_predictor_dispatch 8
    (contextual_bandit_input_dims 8 true true false 64 [1, 3, 5] true true false 0)
    1 false [64, 32]).2.2 "linucb" (by decide) (by decide)

/-- **C9.** With user embeddings enabled and `use_normalize` disabled,
`compute_user_embeddings` fails on every input (`out` is assigned only in
the `use_normalize` branch), hence `forward` fails on every input in that
configuration; `compute_user_embeddings` succeeds exactly when
`use_normalize` is enabled. -/
theorem C9_compute_user_embeddings_unbound_local {α β UserId : Type}
    (normalize : α → α) (embed_user : UserId → α) (ctxRep itemRep : Option α)
    (predict : Option α → Option α → Option α → β) (user_ids : UserId)
    (u : α) (use_normalize : Bool) :
    contextual_bandit_forward true false normalize embed_user ctxRep itemRep
        predict user_ids = .error () ∧
    compute_user_embeddings false normalize u = (.error () : Except Unit α) ∧
    ((compute_user_embeddings use_normalize normalize u).isOk = true ↔
      use_normalize = true) := by
  refine ⟨?_, rfl, ?_⟩
  · simp [contextual_bandit_forward, compute_user_embeddings, Except.map]
  · cases use_normalize <;>
      simp [compute_user_embeddings, Except.isOk, Except.toBool]

lemma fm_higher_order_step_error_iff (dot : List ℚ → List ℚ → ℚ)
    (lv : List (List ℚ)) (k : ℕ) :
    fm_higher_order_step dot lv k = .error () ↔
      (k ≠ 2 ∧ k ≤ lv.length) := by
  unfold fm_higher_order_step
  by_cases hk : k = 2 <;> by_cases hlen : k ≤ lv.length <;> simp [hk, hlen]

lemma fm_higher_order_loop_error_iff (dot : List ℚ → List ℚ → ℚ)
    (lv : List (List ℚ)) (ks : List ℕ) :
    fm_higher_order_loop dot lv ks = .error () ↔
      ∃ k ∈ ks, k ≠ 2 ∧ k ≤ lv.length := by
  induction ks with
  | nil => simp [fm_higher_order_loop]
  | cons k ks ih =>
    simp only [fm_higher_order_loop]
    cases hstep : fm_higher_order_step dot lv k with
    | error e =>
      cases e
      constructor
      · intro _
        exact ⟨k, List.mem_cons_self k ks,
          (fm_higher_order_step_error_iff dot lv k).mp hstep⟩
      · intro _
        rfl
    | ok dots =>
      cases hloop : fm_higher_order_loop dot lv ks with
      | error e =>
        cases e
        constructor
        · intro _
          rcases ih.mp hloop with ⟨j, hj, hcond⟩
          exact ⟨j, List.mem_cons_of_mem k hj, hcond⟩
        · intro _
          rfl
      | ok rest =>
        constructor
        · intro h
          cases h
        · rintro ⟨j, hj, hcond⟩
          rcases List.mem_cons.mp hj with rfl | hj'
          · rw [(fm_higher_order_step_error_iff dot lv j).mpr hcond] at hstep
            cases hstep
          · rw [ih.mpr ⟨j, hj', hcond⟩] at hloop
            cases hloop

/-- The higher-order loop over `range(2, order + 1)` raises exactly when
some `k ≥ 3` is reached with at least `k` latent vectors, i.e. when
`order ≥ 3` and at least three latent vectors exist. -/
lemma fm_higher_order_loop_range_error_iff (dot : List ℚ → List ℚ → ℚ)
    (lv : List (List ℚ)) (order : ℕ) :
    fm_higher_order_loop dot lv (List.range' 2 (order - 1)) = .error () ↔
      (3 ≤ order ∧ 3 ≤ lv.length) := by
  rw [fm_higher_order_loop_error_iff]
  constructor
  · rintro ⟨k, hk, hk2, hkl⟩
    rw [List.mem_range'_1] at hk
    exact ⟨by omega, by omega⟩
  · rintro ⟨ho, hl⟩
    exact ⟨3, List.mem_range'_1.mpr (by omega), by omega, hl⟩

lemma except_map_eq_error_iff {α β : Type} (x : Except Unit α) (f : α → β) :
    x.map f = .error () ↔ x = .error () := by
  cases x with
  | error e => cases e; simp [Except.map]
  | ok a => simp [Except.map]

/-- **C10, counterexample.** The claim says `DeepFactorizationMachine.predict`
fails whenever at least one but not all of the three representations is
`None`; but with a `None` item and non-`None` user and context the
first-order loop skips the leading `None` (`x = v if none_tensor(x) ...`),
never hands `None` to `torch.cat`, and the call succeeds. -/
theorem C10_fm_predict_none_item_succeeds :
    fm_predict (fun l => l.sum) id id id (fun _ _ => 0) 1 false (fun _ => 0)
      id none (some [1]) (some [1]) = .ok 2 := by
  simp [fm_predict, fm_first_order_step, fm_higher_order_loop, Except.map]
  norm_num

/-- **C10, amended.** `DeepFactorizationMachine.predict` fails exactly when
the context representation is `None`, or the item representation is
non-`None` while the user representation is `None` (the cases where
`torch.cat` receives a `None`, together with the all-`None` linear input,
which is subsumed by a `None` context), or `order ≥ 3` while all three
representations are non-`None` (unpacking a `k ≥ 3` combination of the
three latent vectors into `a, b` raises `ValueError`). In particular, with
a `None` item but non-`None` user and context the leading `None` is skipped
and the call succeeds. `LogisticRegression.predict` tolerates any non-empty
subset of non-`None` representations: it fails exactly when all three are
`None`, independently of `order`. -/
theorem C10_fm_predict_definedness (linear : List ℚ → ℚ)
    (ctxLayer itemLayer userLayer : List ℚ → List ℚ)
    (dot : List ℚ → List ℚ → ℚ) (order : ℕ) (deep : Bool)
    (deepNet : List (List ℚ) → ℚ) (sigmoid : ℚ → ℚ)
    (item user ctx : Option (List ℚ)) :
    (fm_predict linear ctxLayer itemLayer userLayer dot order deep deepNet
        sigmoid item user ctx = .error () ↔
      (ctx = none ∨ (item ≠ none ∧ user = none) ∨
        (3 ≤ order ∧ item ≠ none ∧ user ≠ none ∧ ctx ≠ none))) ∧
    (lr_predict linear sigmoid item user ctx = .error () ↔
      (item = none ∧ user = none ∧ ctx = none)) := by
  rcases item with _ | it <;> rcases user with _ | us <;> rcases ctx with _ | cx <;>
    simp [fm_predict, fm_first_order_step, lr_predict,
      except_map_eq_error_iff, fm_higher_order_loop_range_error_iff]

end MarsGym
